import Mathlib

/-!
# Verification of the ToonFetch MCP server's schema-resolution and
# example-synthesis engine

A shallow embedding of the example-generation core of
`src/mcp-server.ts` (class `ToonFetchMCPServer`): `generateExampleValue`,
`resolveRef`, the `allOf` flattening inside `generateRequestBodyCode`,
the field-entry emission of `generateRequestBodyCode`, the TTL/FIFO
discipline of the `exampleCache` inside `generateCodeExample`, and
`analyzeResponseStructure`.

JavaScript values reachable by this code are JSON trees (the documents
come from `JSON.parse`), so the data model is a `Json` inductive type.
JavaScript numbers are modelled as `Int` (the engine only produces and
compares small integers).  JavaScript string builtins used by the code
(`startsWith`, `split`, `includes`, `toLowerCase`) are modelled by
character-list functions defined below.
-/

namespace ToonFetch

/-- JSON value, the type of every JavaScript value the engine touches
(documents are produced by `JSON.parse`). -/
inductive Json where
  | null : Json
  | bool : Bool → Json
  | num : Int → Json
  | str : String → Json
  | arr : List Json → Json
  | obj : List (String × Json) → Json
deriving Repr

/-- Look up a key in an association list (JavaScript object member
access; objects parsed from JSON have unique keys, so first match is
the match). -/
def mapGet {V : Type} : List (String × V) → String → Option V
  | [], _ => none
  | (k, v) :: rest, key => if k = key then some v else mapGet rest key

/-- JavaScript member access `x[key]`: a key of an object, `undefined`
(`none`) otherwise.  Member access on primitives yields `undefined` in
JavaScript; access on `null` would throw, but every call site guards
against falsy values first. -/
def Json.get : Json → String → Option Json
  | .obj fields, key => mapGet fields key
  | _, _ => none

/-- JavaScript truthiness of a JSON value. -/
def Json.truthy : Json → Bool
  | .null => false
  | .bool b => b
  | .num n => n != 0
  | .str s => s != ""
  | .arr _ => true
  | .obj _ => true

/-- `typeof x === 'object'` for a JSON value (arrays and `null` are
objects in JavaScript). -/
def Json.isObjLike : Json → Bool
  | .obj _ => true
  | .arr _ => true
  | .null => true
  | _ => false

/-- Model of `String.prototype.startsWith`. -/
def strStartsWith (s pre : String) : Bool :=
  pre.data.isPrefixOf s.data

/-- `List.isInfixOf` with explicit recursion, so the kernel evaluates
it on concrete inputs. -/
def listIsInfixOf (needle : List Char) : List Char → Bool
  | [] => needle.isPrefixOf []
  | c :: rest => needle.isPrefixOf (c :: rest) || listIsInfixOf needle rest

/-- Model of `String.prototype.includes`. -/
def strIncludes (s sub : String) : Bool :=
  listIsInfixOf sub.data s.data

/-- Model of `String.prototype.toLowerCase` (ASCII suffices for the
property names the engine sees). -/
def strToLower (s : String) : String :=
  ⟨s.data.map Char.toLower⟩

/-- Split a character list at `'/'` (model of `"...".split('/')`). -/
def splitSlashAux : List Char → List Char → List (List Char)
  | [], acc => [acc.reverse]
  | c :: rest, acc =>
    if c = '/' then acc.reverse :: splitSlashAux rest []
    else splitSlashAux rest (c :: acc)

/-- Model of `String.prototype.split('/')` (`"".split('/') = [""]`,
exactly as in JavaScript). -/
def splitSlash (s : String) : List String :=
  (splitSlashAux s.data []).map (fun cs => ⟨cs⟩)

/-- Model of `s.substring 2` (used as `ref.substring(2)`). -/
def strDrop2 (s : String) : String :=
  ⟨s.data.drop 2⟩

/-- `s.split('T')[0]` — everything before the first `'T'`
(used for `new Date().toISOString().split('T')[0]`). -/
def beforeT (s : String) : String :=
  ⟨s.data.takeWhile (fun c => c ≠ 'T')⟩

/-- One step of `resolveRef`'s walk: `current[segment]` for an object
or an array (arrays are indexed by canonical numeric strings in
JavaScript); anything else is unreachable behind the
`typeof current === 'object'` guard. -/
def jsIndex : Json → String → Option Json
  | .obj fields, seg => mapGet fields seg
  | .arr xs, seg =>
    match seg.toNat? with
    | some n => if seg = toString n then xs[n]? else none
    | none => none
  | _, _ => none

/-- The segment loop of `resolveRef` (mcp-server.ts lines 1056-1070):
at each segment, return `null` when `current` is falsy or not
object-typed, otherwise index; after the loop, a falsy result is also
`null`.  A missing key makes `current` undefined, which the next check
(or the final one) turns into `null`, so it is `none` at once here. -/
def walkSegs : Json → List String → Option Json
  | cur, [] => if cur.truthy then some cur else none
  | cur, seg :: rest =>
    if cur.truthy && cur.isObjLike then
      match jsIndex cur seg with
      | some next => walkSegs next rest
      | none => none
    else none

/-- The cache-free part of `resolveRef` (mcp-server.ts lines
1046-1076): reject refs that do not start with `#/`, then split the
remainder on `/` and walk the document.  The memoizing wrapper is
`resolveRef` below; for a fixed loaded document the memo is
semantically transparent (it only ever stores walk results), so the
recursive calls inside `generateExampleValue` use this walk
directly. -/
def walkRef (ref : String) (spec : Json) : Option Json :=
  if strStartsWith ref "#/" then walkSegs spec (splitSlash (strDrop2 ref))
  else none

/-- The `$ref` step of `generateExampleValue` (lines 973-978):
`property.$ref` must be truthy (a non-empty string; a non-string value
would make `resolveRef` throw on `startsWith` and cannot come from a
JSON document's `$ref`), and the resolution must succeed. -/
def refTarget (property : Json) (spec : Json) : Option Json :=
  match Json.get property "$ref" with
  | some (.str r) => if r = "" then none else walkRef r spec
  | _ => none

/-- First element of a non-empty `enum`
(`property.enum && property.enum.length > 0` then `property.enum[0]`). -/
def enumHead (property : Json) : Option Json :=
  match Json.get property "enum" with
  | some (.arr (x :: _)) => some x
  | _ => none

/-- The `type === 'string'` branch of `generateExampleValue` (lines
982-1009): format-specific literals first, then property-name
heuristics on the lowercased name, then the generic placeholder.
`nowIso` stands for `new Date().toISOString()`. -/
def stringExample (property : Json) (propertyName : String) (nowIso : String) : Json :=
  match Json.get property "format" with
  | some (.str "email") => .str "user@example.com"
  | some (.str "date-time") => .str nowIso
  | some (.str "date") => .str (beforeT nowIso)
  | some (.str "uuid") => .str "123e4567-e89b-12d3-a456-426614174000"
  | some (.str "uri") => .str "https://example.com"
  | some (.str "url") => .str "https://example.com"
  | _ =>
    let lowerName := strToLower propertyName
    if strIncludes lowerName "id" then .str "example-id"
    else if strIncludes lowerName "name" then .str "Example Name"
    else if strIncludes lowerName "email" then .str "user@example.com"
    else if strIncludes lowerName "url" then .str "https://example.com"
    else if strIncludes lowerName "token" then .str "example_token_123"
    else .str "example_value"

/-- `property.format === 'int64'`. -/
def fmtIsInt64 (property : Json) : Bool :=
  match Json.get property "format" with
  | some (.str "int64") => true
  | _ => false

/-- Whether `property.properties` is truthy (the object fallback test
`type === 'object' || property.properties`). -/
def propsTruthy (property : Json) : Bool :=
  match Json.get property "properties" with
  | some v => v.truthy
  | none => false

/-- The `Object.entries(property.properties)` the object branch
iterates (empty when `properties` is falsy or not an object). -/
def propEntries (property : Json) : List (String × Json) :=
  match Json.get property "properties" with
  | some (.obj fs) => fs
  | _ => []

mutual

/-- `generateExampleValue` (mcp-server.ts lines 960-1037), indexed by
fuel: the source recurses through `$ref` resolution, `items` and
`properties` with no cycle guard, so its call tree needs not be
finite; `none` means the recursion depth exceeds `fuel` (the source
would still be recursing), `some v` is the JavaScript return value
(`Json.null` for the final `return null`). -/
def generateExampleValue (fuel : Nat) (property : Json) (propertyName : String)
    (schema : Json) (spec : Json) (nowIso : String) : Option Json :=
  match fuel with
  | 0 => none
  | fuel' + 1 =>
    match Json.get property "example" with
    | some v => some v
    | none =>
    match Json.get property "default" with
    | some v => some v
    | none =>
    match enumHead property with
    | some v => some v
    | none =>
    match refTarget property spec with
    | some resolved => generateExampleValue fuel' resolved propertyName schema spec nowIso
    | none =>
    match Json.get property "type" with
    | some (.str t) =>
      if t = "string" then some (stringExample property propertyName nowIso)
      else if t = "number" ∨ t = "integer" then
        some (.num (if t = "integer" ∧ fmtIsInt64 property then 1 else 10))
      else if t = "boolean" then some (.bool true)
      else if t = "array" then
        match Json.get property "items" with
        | some items =>
          if items.truthy then
            (generateExampleValue fuel' items propertyName schema spec nowIso).map
              (fun v => Json.arr [v])
          else some (.arr [.str "example"])
        | none => some (.arr [.str "example"])
      else if t = "object" then
        (genProps fuel' (propEntries property) schema spec nowIso).map Json.obj
      else if propsTruthy property then
        (genProps fuel' (propEntries property) schema spec nowIso).map Json.obj
      else some .null
    | _ =>
      if propsTruthy property then
        (genProps fuel' (propEntries property) schema spec nowIso).map Json.obj
      else some .null
termination_by (fuel, 0)
decreasing_by
  all_goals (apply Prod.Lex.left; omega)

/-- The object-branch loop of `generateExampleValue` (lines
1027-1032): synthesize each property in document order. -/
def genProps (fuel : Nat) (fields : List (String × Json)) (schema spec : Json)
    (nowIso : String) : Option (List (String × Json)) :=
  match fields with
  | [] => some []
  | (key, value) :: rest =>
    match generateExampleValue fuel value key schema spec nowIso with
    | none => none
    | some v =>
      match genProps fuel rest schema spec nowIso with
      | none => none
      | some tail => some ((key, v) :: tail)
termination_by (fuel, fields.length + 1)
decreasing_by
  all_goals (apply Prod.Lex.right; simp only [List.length_cons]; omega)

end

/-- `Map.prototype.set`: update the value in place when the key
exists (keeping its position in iteration order), otherwise append. -/
def mapSet {V : Type} : List (String × V) → String → V → List (String × V)
  | [], k, v => [(k, v)]
  | (k', v') :: rest, k, v =>
    if k' = k then (k', v) :: rest else (k', v') :: mapSet rest k v

/-- `Map.prototype.delete`: drop the entry with the given key (keys
are unique under the `mapSet` discipline). -/
def mapDelete {V : Type} : List (String × V) → String → List (String × V)
  | [], _ => []
  | (k', v') :: rest, k =>
    if k' = k then rest else (k', v') :: mapDelete rest k

/-- `resolveRef` with its memo (mcp-server.ts lines 1039-1077): a hit
in `refCache` is returned at once (`this.refCache.get(ref) || null`);
otherwise the document walk runs and, only on success, the result is
stored under the exact ref string.  The cache is keyed by the ref
string alone. -/
def resolveRef (ref : String) (spec : Json) (refCache : List (String × Json)) :
    Option Json × List (String × Json) :=
  match mapGet refCache ref with
  | some v => (if v.truthy then some v else none, refCache)
  | none =>
    match walkRef ref spec with
    | some resolved => (some resolved, mapSet refCache ref resolved)
    | none => (none, refCache)

/-- A `CachedExample` entry of the example cache
(`{timestamp, example}` in src/types.ts; the `example` field is named
`ex` here because `example` is a Lean keyword). -/
structure CachedExample (E : Type) where
  timestamp : Int
  ex : E
deriving Repr, DecidableEq

/-- The insertion path of `generateCodeExample` (lines 1278-1285):
when the cache is at or above the configured capacity
(`config.cache.exampleSize`), delete the first key in iteration order
(`keys().next().value`; skipped when it is falsy, i.e. the empty
string, or the cache is empty), then `set` the new entry. -/
def insertBuilt {E : Type} (capacity : Nat) (now : Int) (cacheKey : String) (built : E)
    (cache : List (String × CachedExample E)) : E × List (String × CachedExample E) :=
  let cache' :=
    if capacity ≤ cache.length then
      match cache with
      | [] => cache
      | (firstKey, _) :: rest => if firstKey = "" then cache else rest
    else cache
  (built, mapSet cache' cacheKey ⟨now, built⟩)

/-- The `exampleCache` discipline of `generateCodeExample` (lines
1200-1209 and 1278-1287), abstracted over the generation work: `built`
is the `CodeExample` the body (lines 1211-1276, which never touches
`exampleCache`) would produce, and `now` models `Date.now()` during
the synchronous call.  A hit younger than `ttl`
(`config.cache.exampleTTL`) is returned as stored; a stale hit is
deleted and treated as a miss. -/
def generateCodeExampleCache {E : Type} (capacity : Nat) (ttl now : Int) (cacheKey : String)
    (built : E) (cache : List (String × CachedExample E)) :
    E × List (String × CachedExample E) :=
  match mapGet cache cacheKey with
  | some cached =>
    if now - cached.timestamp < ttl then (cached.ex, cache)
    else insertBuilt capacity now cacheKey built (mapDelete cache cacheKey)
  | none => insertBuilt capacity now cacheKey built cache

/-- Branch resolution inside the `allOf` loop of
`generateRequestBodyCode` (lines 362-368): a branch with a `$ref` key
is dereferenced (an unresolvable one is skipped by `continue`), any
other branch is used as is.  A `$ref` whose value is not a string
cannot come from a JSON `$ref` and is modelled as a failed
resolution. -/
def resolveBranch (spec : Json) (sub : Json) : Option Json :=
  match Json.get sub "$ref" with
  | some (.str r) => walkRef r spec
  | some _ => none
  | none => some sub

/-- `Object.assign(target, source)`: copy the source's own enumerable
properties onto the target in source order; an existing key keeps its
position and gets the new value, a new key is appended. -/
def assignProps (target source : List (String × Json)) : List (String × Json) :=
  source.foldl (fun acc kv => mapSet acc kv.1 kv.2) target

/-- `resolved.required.forEach(field => allRequired.add(field))`: the
`Set<string>` keeps insertion order and deduplicates.  Non-string
array elements would sit in the set but can never equal the string
`propName` queried by `has`, so only string elements are kept. -/
def addRequired (req : List String) (xs : List Json) : List String :=
  xs.foldl
    (fun acc x =>
      match x with
      | Json.str s => if s ∈ acc then acc else acc ++ [s]
      | _ => acc)
    req

/-- One `allOf` branch of the collection loop (lines 361-379): resolve
the branch, `Object.assign` its truthy `properties` object, and add
its `required` array to the set. -/
def branchAccum (spec : Json) (acc : List (String × Json) × List String) (sub : Json) :
    List (String × Json) × List String :=
  match resolveBranch spec sub with
  | none => acc
  | some resolved =>
    let props :=
      match Json.get resolved "properties" with
      | some (.obj fs) => assignProps acc.1 fs
      | _ => acc.1
    let req :=
      match Json.get resolved "required" with
      | some (.arr xs) => addRequired acc.2 xs
      | _ => acc.2
    (props, req)

/-- The property/required collection of `generateRequestBodyCode`
(lines 355-388): start empty, fold the `allOf` branches in declared
order, then merge the schema's own direct `properties` and `required`
last.  (`'allOf' in schema && schema.allOf` with a non-array truthy
value would make `for...of` throw; only an array iterates.) -/
def collectBodyProps (spec : Json) (body : Json) : List (String × Json) × List String :=
  let afterAllOf :=
    match Json.get body "allOf" with
    | some (.arr branches) => branches.foldl (branchAccum spec) ([], [])
    | _ => ([], [])
  let props :=
    match Json.get body "properties" with
    | some (.obj fs) => assignProps afterAllOf.1 fs
    | _ => afterAllOf.1
  let req :=
    match Json.get body "required" with
    | some (.arr xs) => addRequired afterAllOf.2 xs
    | _ => afterAllOf.2
  (props, req)

/-- The declared `allOf` branch list of a schema (empty when absent or
not an array). -/
def allOfBranches (body : Json) : List Json :=
  match Json.get body "allOf" with
  | some (.arr branches) => branches
  | _ => []

/-- The `properties` fields a single resolved `allOf` branch
contributes (empty when the branch does not resolve or carries no
properties object). -/
def branchProps (spec : Json) (sub : Json) : List (String × Json) :=
  match resolveBranch spec sub with
  | some resolved =>
    match Json.get resolved "properties" with
    | some (.obj fs) => fs
    | _ => []
  | none => []

/-- The string to an optional JSON value (`null` when not a string). -/
def jstr : Json → Option String
  | .str s => some s
  | _ => none

/-- The `required` names a single resolved `allOf` branch contributes. -/
def branchReq (spec : Json) (sub : Json) : List String :=
  match resolveBranch spec sub with
  | some resolved =>
    match Json.get resolved "required" with
    | some (.arr xs) => xs.filterMap jstr
    | _ => []
  | none => []

/-- The schema's own direct `properties` fields. -/
def directProps (body : Json) : List (String × Json) :=
  match Json.get body "properties" with
  | some (.obj fs) => fs
  | _ => []

/-- The schema's own direct `required` names. -/
def directReq (body : Json) : List String :=
  match Json.get body "required" with
  | some (.arr xs) => xs.filterMap jstr
  | _ => []

/-- Look up the LAST binding of a name in an association list (the
binding `Object.assign` leaves in force when a source object carries
the key more than once). -/
def lookupLastP (fields : List (String × Json)) (name : String) : Option Json :=
  mapGet fields.reverse name

/-- `some`-biased choice, the shape `Object.assign` layering takes. -/
def optOr {α : Type} : Option α → Option α → Option α
  | some v, _ => some v
  | none, b => b

mutual

/-- Model of the `JSON.stringify` builtin on JSON values (string
escaping omitted; the engine only stringifies values it synthesized
itself). -/
def stringifyJson : Json → String
  | .null => "null"
  | .bool true => "true"
  | .bool false => "false"
  | .num n => toString n
  | .str s => "\"" ++ s ++ "\""
  | .arr xs => "[" ++ stringifyArr xs ++ "]"
  | .obj fs => "\x7b" ++ stringifyFields fs ++ "\x7d"

/-- Comma-joined element list for `stringifyJson`. -/
def stringifyArr : List Json → String
  | [] => ""
  | [x] => stringifyJson x
  | x :: y :: rest => stringifyJson x ++ "," ++ stringifyArr (y :: rest)

/-- Comma-joined field list for `stringifyJson`. -/
def stringifyFields : List (String × Json) → String
  | [] => ""
  | [(k, v)] => "\"" ++ k ++ "\":" ++ stringifyJson v
  | (k, v) :: kv :: rest =>
    "\"" ++ k ++ "\":" ++ stringifyJson v ++ "," ++ stringifyFields (kv :: rest)

end

/-- `typeof exampleValue === 'string' ? \x60'$\x7bexampleValue\x7d'\x60 :
JSON.stringify(exampleValue)` (line 395). -/
def valueToCode : Json → String
  | .str s => "'" ++ s ++ "'"
  | v => stringifyJson v

/-- The field-entry loop of `generateRequestBodyCode` (lines 391-404):
one line per flattened property, a live assignment tagged
`// required` when the name is in the required set, a commented-out
line tagged `// optional` otherwise.  `none` when the synthesis of
some property value exceeds `fuel`. -/
def fieldEntryLines (fuel : Nat) (allProperties : List (String × Json))
    (allRequired : List String) (resolvedBody spec : Json) (nowIso : String) :
    Option (List String) :=
  match allProperties with
  | [] => some []
  | (propName, propSchema) :: rest =>
    match generateExampleValue fuel propSchema propName resolvedBody spec nowIso with
    | none => none
    | some ev =>
      let valueStr := valueToCode ev
      let line :=
        if propName ∈ allRequired then
          "  " ++ propName ++ ": " ++ valueStr ++ ", // required"
        else
          "  // " ++ propName ++ ": " ++ valueStr ++ ", // optional"
      match fieldEntryLines fuel rest allRequired resolvedBody spec nowIso with
      | none => none
      | some tail => some (line :: tail)

/-- The `ResponseStructure` record built by `analyzeResponseStructure`. -/
structure ResponseStructure where
  statusCode : Nat
  schema : Json
  wrapperKeys : List String
  primaryResource : Option String
  importantFields : List String
  isArray : Bool
  hasActions : Bool
deriving Repr

/-- `x || ...` step on a possibly-undefined value: keep it only when
defined and truthy. -/
def jsTruthyOpt : Option Json → Option Json
  | some v => if v.truthy then some v else none
  | none => none

/-- `responseObj.content?.['application/json']?.schema` (line 1117):
optional chaining turns a missing or primitive step into
`undefined`. -/
def contentSchema (responseObj : Json) : Option Json :=
  match Json.get responseObj "content" with
  | none => none
  | some c =>
    match Json.get c "application/json" with
    | none => none
    | some aj => Json.get aj "schema"

/-- The wrapper-key test of the property loop (line 1156):
`prop?.type === 'object' || prop?.$ref`. -/
def isWrapperProp (prop : Json) : Bool :=
  (match Json.get prop "type" with
   | some (.str "object") => true
   | _ => false) ||
  (match Json.get prop "$ref" with
   | some v => v.truthy
   | none => false)

/-- The important-field collection (lines 1169-1183): take the primary
resource's schema out of `properties`, dereference a truthy `$ref`
(a failed dereference leaves `null`), and keep each of `id`, `uuid`,
`name`, `slug` whose entry in its `properties` is truthy. -/
def importantFieldsOf (spec : Json) (props : List (String × Json)) (primary : String) :
    List String :=
  let primarySchema : Option Json :=
    match mapGet props primary with
    | some ps =>
      (match Json.get ps "$ref" with
       | some rv =>
         if rv.truthy then
           (match rv with
            | .str r => walkRef r spec
            | _ => none)
         else some ps
       | none => some ps)
    | none => none
  match primarySchema with
  | none => []
  | some ps =>
    match Json.get ps "properties" with
    | some pprops =>
      if pprops.truthy then
        ["id", "uuid", "name", "slug"].filter (fun f =>
          match Json.get pprops f with
          | some v => v.truthy
          | none => false)
      else []
    | none => []

/-- The record construction of `analyzeResponseStructure` (lines
1136-1186) once the response schema is resolved. -/
def buildResponseStructure (spec : Json) (statusCode : Nat) (resolvedSchema : Json) :
    ResponseStructure :=
  let isArr :=
    match Json.get resolvedSchema "type" with
    | some (.str "array") => true
    | _ => false
  if isArr then
    { statusCode := statusCode, schema := resolvedSchema, wrapperKeys := [],
      primaryResource := none, importantFields := [], isArray := true, hasActions := false }
  else
    let fields := propEntries resolvedSchema
    let wrapperKeys := (fields.filter (fun kv => isWrapperProp kv.2)).map Prod.fst
    let primaryResource := wrapperKeys.head?
    let hasActions := wrapperKeys.any (fun k => k == "action" || k == "actions")
    let importantFields :=
      match primaryResource with
      | some p => importantFieldsOf spec fields p
      | none => []
    { statusCode := statusCode, schema := resolvedSchema, wrapperKeys := wrapperKeys,
      primaryResource := primaryResource, importantFields := importantFields,
      isArray := false, hasActions := hasActions }

/-- `analyzeResponseStructure` (mcp-server.ts lines 1081-1187).  The
response object is the first truthy of `responses['200']`,
`responses['201']`, `responses['202']`, `responses['204']` (the
fallback loop at lines 1093-1101 re-reads the same four keys — numeric
indexing coerces to the same strings — so it can never change the
outcome and is not re-modelled).  The status-code override at lines
1107-1110 then reports 201 (else 202) whenever such a response exists,
regardless of which response was selected. -/
def analyzeResponseStructure (operation spec : Json) : Option ResponseStructure :=
  let responses :=
    match Json.get operation "responses" with
    | some v => if v.truthy then v else Json.obj []
    | none => Json.obj []
  let responseObj :=
    optOr (jsTruthyOpt (responses.get "200"))
      (optOr (jsTruthyOpt (responses.get "201"))
        (optOr (jsTruthyOpt (responses.get "202")) (jsTruthyOpt (responses.get "204"))))
  match responseObj with
  | none => none
  | some respObj =>
    let statusCode : Nat :=
      if (jsTruthyOpt (responses.get "201")).isSome then 201
      else if (jsTruthyOpt (responses.get "202")).isSome then 202
      else 200
    if (Json.get respObj "$ref").isSome then none
    else
      match contentSchema respObj with
      | none => none
      | some schema =>
        if schema.truthy then
          let resolvedSchemaOpt : Option Json :=
            match Json.get schema "$ref" with
            | some (.str r) => walkRef r spec
            | some _ => none
            | none => some schema
          match resolvedSchemaOpt with
          | none => none
          | some resolvedSchema =>
            if (Json.get resolvedSchema "$ref").isSome then none
            else some (buildResponseStructure spec statusCode resolvedSchema)
        else none

/-- Whether a JSON value is a string (what a "placeholder string"
would have to be). -/
def Json.isStr : Json → Bool
  | .str _ => true
  | _ => false

/-- A self-referential schema node: its `$ref` resolves to itself. -/
def cyclicNode : Json := Json.obj [("$ref", Json.str "#/components/schemas/A")]

/-- A document in which `#/components/schemas/A` is `cyclicNode`, so
resolution loops. -/
def cyclicSpec : Json :=
  Json.obj [("components", Json.obj [("schemas", Json.obj [("A", cyclicNode)])])]

/-- C1: a schema node with an explicit `example` value makes
`generateExampleValue` return that value unchanged, whatever its
`type`, `format`, `default`, `enum` or `$ref` fields hold — the
`example` check is the first rule tried. -/
theorem generateExampleValue_example_first (fuel : Nat) (property : Json)
    (propertyName : String) (schema spec : Json) (nowIso : String) (v : Json)
    (hfuel : 0 < fuel) (hex : Json.get property "example" = some v) :
    generateExampleValue fuel property propertyName schema spec nowIso = some v := by
  cases fuel with
  | zero => omega
  | succ n => rw [generateExampleValue.eq_def]; simp [hex]

/-- C1 witness: a node carrying `example`, `default`, `enum`, `$ref`,
`type` and `format` still returns the `example` value. -/
theorem generateExampleValue_example_first_witness :
    generateExampleValue 1
      (Json.obj [("example", Json.num 7), ("default", Json.num 3),
        ("enum", Json.arr [Json.num 9]), ("$ref", Json.str "#/nope"),
        ("type", Json.str "integer"), ("format", Json.str "int64")])
      "n" (Json.obj []) (Json.obj []) "" = some (Json.num 7) :=
  generateExampleValue_example_first 1
    (Json.obj [("example", Json.num 7), ("default", Json.num 3),
      ("enum", Json.arr [Json.num 9]), ("$ref", Json.str "#/nope"),
      ("type", Json.str "integer"), ("format", Json.str "int64")])
    "n" (Json.obj []) (Json.obj []) "" (Json.num 7) (by decide) rfl

/-- C2: `generateExampleValue` does NOT terminate on cyclic schemas —
on the self-referential node of `cyclicSpec` every recursion budget is
exhausted (the source, which has no visited-ref guard, recurses
forever through `resolveRef` until the stack overflows). -/
theorem generateExampleValue_diverges_on_cycle :
    ∀ fuel : Nat,
      generateExampleValue fuel cyclicNode "item" (Json.obj []) cyclicSpec "" = none := by
  intro fuel
  induction fuel with
  | zero => rw [generateExampleValue.eq_def]
  | succ n ih => rw [generateExampleValue.eq_def]; exact ih

/-- C3 counterexample: a bare `$ref` node whose reference does not
resolve (the document is empty) makes `generateExampleValue` return
JavaScript `null` — which is not a string, let alone a placeholder
string naming the reference. -/
theorem generateExampleValue_unresolved_ref_returns_null :
    generateExampleValue 5 (Json.obj [("$ref", Json.str "#/components/schemas/Missing")])
        "item" (Json.obj []) (Json.obj []) "" = some Json.null
    ∧ Json.null.isStr = false := by
  constructor
  · rw [generateExampleValue.eq_def]; rfl
  · rfl

/-- C3 amended: with no `example`/`default`/non-empty `enum`, an
unresolvable `$ref` is silently skipped and the node falls through to
the type dispatch; with no recognized `type` and no truthy
`properties` the result is `null` (not a placeholder string), and the
function does not throw. -/
theorem generateExampleValue_unresolved_ref_falls_through (fuel : Nat) (property : Json)
    (propertyName : String) (schema spec : Json) (nowIso : String) (r : String)
    (hfuel : 0 < fuel)
    (hex : Json.get property "example" = none)
    (hdef : Json.get property "default" = none)
    (henum : enumHead property = none)
    (href : Json.get property "$ref" = some (Json.str r))
    (hr : r ≠ "")
    (hwalk : walkRef r spec = none)
    (htype : Json.get property "type" = none)
    (hprops : propsTruthy property = false) :
    generateExampleValue fuel property propertyName schema spec nowIso = some Json.null := by
  cases fuel with
  | zero => omega
  | succ n =>
    have hrt : refTarget property spec = none := by
      unfold refTarget; rw [href]; simp [hr, hwalk]
    rw [generateExampleValue.eq_def]
    simp [hex, hdef, henum, hrt, htype, hprops]

/-- C3 witness: the amended statement evaluated on the bare
unresolvable-`$ref` node. -/
theorem generateExampleValue_unresolved_ref_falls_through_witness :
    generateExampleValue 5 (Json.obj [("$ref", Json.str "#/components/schemas/Missing")])
      "item" (Json.obj []) (Json.obj []) "" = some Json.null :=
  generateExampleValue_unresolved_ref_falls_through 5
    (Json.obj [("$ref", Json.str "#/components/schemas/Missing")])
    "item" (Json.obj []) (Json.obj []) "" "#/components/schemas/Missing"
    (by decide) rfl rfl rfl rfl (by decide) rfl rfl rfl

/-- C8 counterexample: a schema of type `number` with `format: int64`
(and no `example`/`default`/`enum`) gets the value 10, not the 1 the
claim's "unless the format is int64" requires — the source's int64
rule additionally demands `type === 'integer'`. -/
theorem generateExampleValue_number_int64_counterexample :
    generateExampleValue 5
        (Json.obj [("type", Json.str "number"), ("format", Json.str "int64")])
        "n" (Json.obj []) (Json.obj []) "" = some (Json.num 10)
    ∧ (10 : Int) ≠ 1 := by
  constructor
  · rw [generateExampleValue.eq_def]; rfl
  · decide

/-- C8 amended: for a schema of type `number` or `integer` with no
`example`/`default`/non-empty `enum` and no resolving `$ref`,
`generateExampleValue` returns 10 unless the type is `integer` AND the
format is `int64`, in which case it returns 1. -/
theorem generateExampleValue_number_integer (fuel : Nat) (property : Json)
    (propertyName : String) (schema spec : Json) (nowIso : String) (t : String)
    (hfuel : 0 < fuel)
    (hex : Json.get property "example" = none)
    (hdef : Json.get property "default" = none)
    (henum : enumHead property = none)
    (href : refTarget property spec = none)
    (htype : Json.get property "type" = some (Json.str t))
    (ht : t = "number" ∨ t = "integer") :
    generateExampleValue fuel property propertyName schema spec nowIso
      = some (Json.num (if t = "integer" ∧ fmtIsInt64 property then 1 else 10)) := by
  cases fuel with
  | zero => omega
  | succ n =>
    rw [generateExampleValue.eq_def]
    rcases ht with h | h <;> subst h <;> simp [hex, hdef, henum, href, htype]

/-- C8 witness: `integer`/`int64` gives 1. -/
theorem generateExampleValue_number_integer_witness :
    generateExampleValue 3
      (Json.obj [("type", Json.str "integer"), ("format", Json.str "int64")])
      "n" (Json.obj []) (Json.obj []) "" = some (Json.num 1) := by
  have h := generateExampleValue_number_integer 3
    (Json.obj [("type", Json.str "integer"), ("format", Json.str "int64")])
    "n" (Json.obj []) (Json.obj []) "" "integer"
    (by decide) rfl rfl rfl rfl rfl (Or.inr rfl)
  simpa [fmtIsInt64, Json.get, mapGet] using h

theorem mapGet_mapSet {V : Type} (l : List (String × V)) (k k' : String) (v : V) :
    mapGet (mapSet l k v) k' = if k' = k then some v else mapGet l k' := by
  induction l with
  | nil =>
    simp only [mapSet, mapGet]
    split_ifs with h1 h2 h2 <;>
      first
        | rfl
        | (exact absurd h1.symm h2)
        | (exact absurd h2.symm h1)
  | cons kv rest ih =>
    obtain ⟨k₀, v₀⟩ := kv
    by_cases h0 : k₀ = k
    · subst h0
      by_cases h1 : k₀ = k'
      · subst h1; simp [mapSet, mapGet]
      · simp [mapSet, mapGet, h1, Ne.symm h1]
    · by_cases h1 : k₀ = k'
      · subst h1; simp [mapSet, mapGet, h0, Ne.symm h0]
      · simp [mapSet, mapGet, h0, h1, ih]

theorem mapGet_mapSet_self {V : Type} (l : List (String × V)) (k : String) (v : V) :
    mapGet (mapSet l k v) k = some v := by
  rw [mapGet_mapSet]; simp

theorem mapGet_cons_eq_none {V : Type} {k₀ : String} {v₀ : V}
    {rest : List (String × V)} {k : String}
    (h : mapGet ((k₀, v₀) :: rest) k = none) : k₀ ≠ k ∧ mapGet rest k = none := by
  by_cases h0 : k₀ = k
  · simp [mapGet, h0] at h
  · simp [mapGet, h0] at h; exact ⟨h0, h⟩

theorem mapSet_of_miss {V : Type} (l : List (String × V)) (k : String) (v : V)
    (h : mapGet l k = none) : mapSet l k v = l ++ [(k, v)] := by
  induction l with
  | nil => rfl
  | cons kv rest ih =>
    obtain ⟨k₀, v₀⟩ := kv
    obtain ⟨hne, hrest⟩ := mapGet_cons_eq_none h
    simp [mapSet, hne, ih hrest]

theorem generateCodeExampleCache_miss {E : Type} (capacity : Nat) (ttl now : Int)
    (cacheKey : String) (built : E) (cache : List (String × CachedExample E))
    (h : mapGet cache cacheKey = none) :
    generateCodeExampleCache capacity ttl now cacheKey built cache
      = insertBuilt capacity now cacheKey built cache := by
  simp [generateCodeExampleCache, h]

theorem generateCodeExampleCache_hit {E : Type} (capacity : Nat) (ttl now : Int)
    (cacheKey : String) (built : E) (cache : List (String × CachedExample E))
    (entry : CachedExample E) (h : mapGet cache cacheKey = some entry)
    (hlt : now - entry.timestamp < ttl) :
    generateCodeExampleCache capacity ttl now cacheKey built cache = (entry.ex, cache) := by
  simp [generateCodeExampleCache, h, hlt]

theorem generateCodeExampleCache_stale {E : Type} (capacity : Nat) (ttl now : Int)
    (cacheKey : String) (built : E) (cache : List (String × CachedExample E))
    (entry : CachedExample E) (h : mapGet cache cacheKey = some entry)
    (hnlt : ¬now - entry.timestamp < ttl) :
    generateCodeExampleCache capacity ttl now cacheKey built cache
      = insertBuilt capacity now cacheKey built (mapDelete cache cacheKey) := by
  simp [generateCodeExampleCache, h, hnlt]

theorem insertBuilt_fst {E : Type} (capacity : Nat) (now : Int) (cacheKey : String)
    (built : E) (cache : List (String × CachedExample E)) :
    (insertBuilt capacity now cacheKey built cache).1 = built := rfl

theorem insertBuilt_get {E : Type} (capacity : Nat) (now : Int) (cacheKey : String)
    (built : E) (cache : List (String × CachedExample E)) :
    mapGet (insertBuilt capacity now cacheKey built cache).2 cacheKey
      = some ⟨now, built⟩ := by
  simp [insertBuilt, mapGet_mapSet_self]

/-- C5: a miss with the cache at or above the configured capacity
evicts exactly the earliest-inserted entry (the head of the iteration
order), retains every other entry in order, and appends the new one
last.  The `firstKey ≠ ""` hypothesis discharges the `if (firstKey)`
guard; `generateCodeExample`'s keys have the form
`api:path:method` and are never empty. -/
theorem generateCodeExample_evicts_first {E : Type} (capacity : Nat) (ttl now : Int)
    (cacheKey : String) (built : E) (firstKey : String) (firstVal : CachedExample E)
    (rest : List (String × CachedExample E))
    (hmiss : mapGet ((firstKey, firstVal) :: rest) cacheKey = none)
    (hcap : capacity ≤ ((firstKey, firstVal) :: rest).length)
    (hfk : firstKey ≠ "") :
    generateCodeExampleCache capacity ttl now cacheKey built ((firstKey, firstVal) :: rest)
      = (built, rest ++ [(cacheKey, ⟨now, built⟩)]) := by
  obtain ⟨hne, hrest⟩ := mapGet_cons_eq_none hmiss
  have hcap' : capacity ≤ rest.length + 1 := by simpa using hcap
  rw [generateCodeExampleCache_miss _ _ _ _ _ _ hmiss]
  simp [insertBuilt, hcap', hfk, mapSet_of_miss rest cacheKey ⟨now, built⟩ hrest]

/-- C5 witness: capacity 2, two entries, a third distinct key — the
oldest entry `"a"` goes, `"b"` stays, `"c"` is appended. -/
theorem generateCodeExample_evicts_first_witness :
    generateCodeExampleCache (E := Int) 2 1000 5 "c" 30
        [("a", ⟨1, 10⟩), ("b", ⟨2, 20⟩)]
      = (30, [("b", ⟨2, 20⟩), ("c", ⟨5, 30⟩)]) :=
  generateCodeExample_evicts_first 2 1000 5 "c" 30 "a" ⟨1, 10⟩ [("b", ⟨2, 20⟩)]
    rfl (by decide) (by decide)

/-- C6: after a first (miss) call stores the freshly built example
with timestamp `t₁`, a second call for the same key at `t₂` with
`t₂ - t₁ < TTL` returns the stored example itself — not the second
builder's output — and leaves the cache unchanged, so the build work
runs once; with `t₂ - t₁ ≥ TTL` the stale entry is replaced and the
example rebuilt (the key now maps to the second build at `t₂`). -/
theorem generateCodeExample_ttl (capacity : Nat) (ttl t₁ t₂ : Int) (cacheKey : String)
    {E : Type} (b₁ b₂ : E) (cache₀ : List (String × CachedExample E))
    (hmiss : mapGet cache₀ cacheKey = none) :
    (generateCodeExampleCache capacity ttl t₁ cacheKey b₁ cache₀).1 = b₁
    ∧ mapGet (generateCodeExampleCache capacity ttl t₁ cacheKey b₁ cache₀).2 cacheKey
        = some ⟨t₁, b₁⟩
    ∧ (t₂ - t₁ < ttl →
        generateCodeExampleCache capacity ttl t₂ cacheKey b₂
            (generateCodeExampleCache capacity ttl t₁ cacheKey b₁ cache₀).2
          = (b₁, (generateCodeExampleCache capacity ttl t₁ cacheKey b₁ cache₀).2))
    ∧ (ttl ≤ t₂ - t₁ →
        (generateCodeExampleCache capacity ttl t₂ cacheKey b₂
            (generateCodeExampleCache capacity ttl t₁ cacheKey b₁ cache₀).2).1 = b₂
        ∧ mapGet (generateCodeExampleCache capacity ttl t₂ cacheKey b₂
            (generateCodeExampleCache capacity ttl t₁ cacheKey b₁ cache₀).2).2 cacheKey
            = some ⟨t₂, b₂⟩) := by
  have hget : mapGet (generateCodeExampleCache capacity ttl t₁ cacheKey b₁ cache₀).2 cacheKey
      = some ⟨t₁, b₁⟩ := by
    rw [generateCodeExampleCache_miss _ _ _ _ _ _ hmiss]
    exact insertBuilt_get _ _ _ _ _
  refine ⟨?_, hget, ?_, ?_⟩
  · rw [generateCodeExampleCache_miss _ _ _ _ _ _ hmiss]; rfl
  · intro hlt
    exact generateCodeExampleCache_hit _ _ _ _ _ _ _ hget hlt
  · intro hge
    have hnlt : ¬(t₂ - (⟨t₁, b₁⟩ : CachedExample E).timestamp < ttl) := by
      simp only []; omega
    rw [generateCodeExampleCache_stale _ _ _ _ _ _ _ hget hnlt]
    exact ⟨insertBuilt_fst _ _ _ _ _, insertBuilt_get _ _ _ _ _⟩

/-- C6 witness: hit inside the TTL window returns the first build and
leaves the cache alone; at or past the TTL the entry is rebuilt. -/
theorem generateCodeExample_ttl_witness :
    (generateCodeExampleCache (E := Int) 100 300000 0 "k" 1 []).1 = 1
    ∧ mapGet (generateCodeExampleCache (E := Int) 100 300000 0 "k" 1 []).2 "k"
        = some ⟨0, 1⟩
    ∧ ((10 : Int) - 0 < 300000 →
        generateCodeExampleCache 100 300000 10 "k" 2
            (generateCodeExampleCache (E := Int) 100 300000 0 "k" 1 []).2
          = (1, (generateCodeExampleCache (E := Int) 100 300000 0 "k" 1 []).2))
    ∧ ((300000 : Int) ≤ 10 - 0 →
        (generateCodeExampleCache 100 300000 10 "k" 2
            (generateCodeExampleCache (E := Int) 100 300000 0 "k" 1 []).2).1 = 2
        ∧ mapGet (generateCodeExampleCache 100 300000 10 "k" 2
            (generateCodeExampleCache (E := Int) 100 300000 0 "k" 1 []).2).2 "k"
            = some ⟨10, 2⟩) :=
  generateCodeExample_ttl 100 300000 0 10 "k" 1 2 [] rfl

/-- C7: `resolveRef` yields `NotFound` for any uncached ref that does
not start with `#/`; on an uncached ref its result is exactly the
segment-by-segment document walk, whose step fails on a missing key or
a non-object intermediate; a successful walk is memoized under the
exact ref string; and a cached (truthy) entry is returned unchanged
for any document whatsoever — no re-walk happens. -/
theorem resolveRef_spec :
    (∀ (ref : String) (spec : Json) (cache : List (String × Json)),
        strStartsWith ref "#/" = false → mapGet cache ref = none →
        resolveRef ref spec cache = (none, cache))
    ∧ (∀ (ref : String) (spec : Json) (cache : List (String × Json)),
        mapGet cache ref = none →
        (resolveRef ref spec cache).1 = walkRef ref spec)
    ∧ (∀ (ref : String) (spec : Json) (cache : List (String × Json)) (v : Json),
        mapGet cache ref = none → walkRef ref spec = some v →
        resolveRef ref spec cache = (some v, mapSet cache ref v))
    ∧ (∀ (fields : List (String × Json)) (seg : String) (rest : List String),
        mapGet fields seg = none →
        walkSegs (Json.obj fields) (seg :: rest) = none)
    ∧ (∀ (cur : Json) (seg : String) (rest : List String),
        cur.isObjLike = false →
        walkSegs cur (seg :: rest) = none)
    ∧ (∀ (ref : String) (spec' : Json) (cache : List (String × Json)) (v : Json),
        mapGet cache ref = some v → v.truthy = true →
        resolveRef ref spec' cache = (some v, cache)) := by
  refine ⟨?_, ?_, ?_, ?_, ?_, ?_⟩
  · intro ref spec cache hpre hcache
    simp [resolveRef, hcache, walkRef, hpre]
  · intro ref spec cache hcache
    simp only [resolveRef, hcache]
    cases walkRef ref spec <;> rfl
  · intro ref spec cache v hcache hwalk
    simp [resolveRef, hcache, hwalk]
  · intro fields seg rest hseg
    simp [walkSegs, jsIndex, Json.truthy, Json.isObjLike, hseg]
  · intro cur seg rest hcur
    simp [walkSegs, hcur]
  · intro ref spec' cache v hcache ht
    simp [resolveRef, hcache, ht]

/-- C7 witness: an external-form ref is `NotFound`; a cached ref is
answered from the memo even against an unrelated document. -/
theorem resolveRef_spec_witness :
    resolveRef "https://example.com/s.json" (Json.obj []) [] = (none, [])
    ∧ resolveRef "#/components/schemas/A" (Json.obj [])
        [("#/components/schemas/A", Json.obj [("type", Json.str "string")])]
      = (some (Json.obj [("type", Json.str "string")]),
         [("#/components/schemas/A", Json.obj [("type", Json.str "string")])]) :=
  ⟨resolveRef_spec.1 "https://example.com/s.json" (Json.obj []) [] rfl rfl,
   resolveRef_spec.2.2.2.2.2 "#/components/schemas/A" (Json.obj [])
     [("#/components/schemas/A", Json.obj [("type", Json.str "string")])]
     (Json.obj [("type", Json.str "string")]) rfl rfl⟩

theorem buildResponseStructure_statusCode (spec : Json) (sc : Nat) (rs : Json) :
    (buildResponseStructure spec sc rs).statusCode = sc := by
  simp only [buildResponseStructure]
  split <;> rfl

theorem buildResponseStructure_schema (spec : Json) (sc : Nat) (rs : Json) :
    (buildResponseStructure spec sc rs).schema = rs := by
  simp only [buildResponseStructure]
  split <;> rfl

/-- C10: when an operation declares truthy `'200'` and `'201'`
responses, the analyzed schema is the `'200'` response's
`application/json` schema (selection prefers 200), yet the reported
`statusCode` is 201 (the override at lines 1107-1110 fires because a
`'201'` response exists) — the reported status code disagrees with the
response whose schema was analyzed. -/
theorem analyzeResponseStructure_statusCode_mismatch
    (operation spec responses r200 r201 s : Json)
    (hresp : Json.get operation "responses" = some responses)
    (hrt : responses.truthy = true)
    (h200 : responses.get "200" = some r200) (h200t : r200.truthy = true)
    (h201 : responses.get "201" = some r201) (h201t : r201.truthy = true)
    (hnoref : Json.get r200 "$ref" = none)
    (hcs : contentSchema r200 = some s) (hst : s.truthy = true)
    (hsnoref : Json.get s "$ref" = none) :
    analyzeResponseStructure operation spec = some (buildResponseStructure spec 201 s)
    ∧ (buildResponseStructure spec 201 s).statusCode = 201
    ∧ (buildResponseStructure spec 201 s).schema = s := by
  refine ⟨?_, buildResponseStructure_statusCode spec 201 s,
    buildResponseStructure_schema spec 201 s⟩
  simp [analyzeResponseStructure, hresp, hrt, jsTruthyOpt, h200, h200t, h201, h201t,
    optOr, hnoref, hcs, hst, hsnoref]

/-- C10 witness: a `'200'` response carrying a `string` schema next to
a `'201'` response carrying an `integer` schema analyzes the `string`
schema but reports status code 201. -/
theorem analyzeResponseStructure_statusCode_mismatch_witness :
    analyzeResponseStructure
        (Json.obj [("responses", Json.obj [
          ("200", Json.obj [("content", Json.obj [("application/json",
            Json.obj [("schema", Json.obj [("type", Json.str "string")])])])]),
          ("201", Json.obj [("content", Json.obj [("application/json",
            Json.obj [("schema", Json.obj [("type", Json.str "integer")])])])])])])
        (Json.obj [])
      = some (buildResponseStructure (Json.obj []) 201 (Json.obj [("type", Json.str "string")]))
    ∧ (buildResponseStructure (Json.obj []) 201
        (Json.obj [("type", Json.str "string")])).statusCode = 201
    ∧ (buildResponseStructure (Json.obj []) 201
        (Json.obj [("type", Json.str "string")])).schema
      = Json.obj [("type", Json.str "string")] :=
  analyzeResponseStructure_statusCode_mismatch
    (Json.obj [("responses", Json.obj [
      ("200", Json.obj [("content", Json.obj [("application/json",
        Json.obj [("schema", Json.obj [("type", Json.str "string")])])])]),
      ("201", Json.obj [("content", Json.obj [("application/json",
        Json.obj [("schema", Json.obj [("type", Json.str "integer")])])])])])])
    (Json.obj [])
    (Json.obj [
      ("200", Json.obj [("content", Json.obj [("application/json",
        Json.obj [("schema", Json.obj [("type", Json.str "string")])])])]),
      ("201", Json.obj [("content", Json.obj [("application/json",
        Json.obj [("schema", Json.obj [("type", Json.str "integer")])])])])])
    (Json.obj [("content", Json.obj [("application/json",
      Json.obj [("schema", Json.obj [("type", Json.str "string")])])])])
    (Json.obj [("content", Json.obj [("application/json",
      Json.obj [("schema", Json.obj [("type", Json.str "integer")])])])])
    (Json.obj [("type", Json.str "string")])
    rfl rfl rfl rfl rfl rfl rfl rfl rfl rfl

theorem optOr_none_right {α : Type} (a : Option α) : optOr a none = a := by
  cases a <;> rfl

theorem optOr_assoc {α : Type} (a b c : Option α) :
    optOr (optOr a b) c = optOr a (optOr b c) := by
  cases a <;> rfl

theorem mapGet_append {V : Type} (l₁ l₂ : List (String × V)) (k : String) :
    mapGet (l₁ ++ l₂) k = optOr (mapGet l₁ k) (mapGet l₂ k) := by
  induction l₁ with
  | nil => simp [mapGet, optOr]
  | cons kv rest ih =>
    obtain ⟨k₀, v₀⟩ := kv
    by_cases h : k₀ = k
    · simp [mapGet, h, optOr]
    · simp [mapGet, h, ih]

theorem lookupLastP_cons (k₀ : String) (v₀ : Json) (rest : List (String × Json))
    (k : String) :
    lookupLastP ((k₀, v₀) :: rest) k
      = optOr (lookupLastP rest k) (if k₀ = k then some v₀ else none) := by
  unfold lookupLastP
  simp only [List.reverse_cons]
  rw [mapGet_append]
  rfl

theorem mapGet_assignProps (s : List (String × Json)) (k : String) :
    ∀ t : List (String × Json),
      mapGet (assignProps t s) k = optOr (lookupLastP s k) (mapGet t k) := by
  induction s with
  | nil => intro t; simp [assignProps, lookupLastP, mapGet, optOr]
  | cons kv rest ih =>
    intro t
    obtain ⟨k₀, v₀⟩ := kv
    have hstep : assignProps t ((k₀, v₀) :: rest) = assignProps (mapSet t k₀ v₀) rest := rfl
    rw [hstep, ih, lookupLastP_cons, optOr_assoc]
    congr 1
    rw [mapGet_mapSet]
    by_cases h : k₀ = k
    · subst h; simp [optOr]
    · simp [optOr, h, Ne.symm h]

theorem findSomeAppend {α β : Type} (l₁ l₂ : List α) (f : α → Option β) :
    (l₁ ++ l₂).findSome? f = optOr (l₁.findSome? f) (l₂.findSome? f) := by
  induction l₁ with
  | nil => simp [List.findSome?, optOr]
  | cons a as ih =>
    simp only [List.cons_append, List.findSome?]
    cases f a <;> simp [optOr, ih]

theorem branchAccum_fst (spec : Json) (acc : List (String × Json) × List String)
    (sub : Json) :
    (branchAccum spec acc sub).1 = assignProps acc.1 (branchProps spec sub) := by
  cases hrb : resolveBranch spec sub with
  | none => simp [branchAccum, branchProps, hrb, assignProps]
  | some r =>
    cases hp : Json.get r "properties" with
    | none => simp [branchAccum, branchProps, hrb, hp, assignProps]
    | some p => cases p <;> simp [branchAccum, branchProps, hrb, hp, assignProps]

theorem foldl_branchAccum_fst (spec : Json) (branches : List Json) :
    ∀ acc : List (String × Json) × List String,
      (branches.foldl (branchAccum spec) acc).1
        = branches.foldl (fun p b => assignProps p (branchProps spec b)) acc.1 := by
  induction branches with
  | nil => intro acc; rfl
  | cons b bs ih =>
    intro acc
    simp only [List.foldl_cons]
    rw [ih, branchAccum_fst]

theorem mapGet_foldl_assign (spec : Json) (branches : List Json) (k : String) :
    ∀ t : List (String × Json),
      mapGet (branches.foldl (fun p b => assignProps p (branchProps spec b)) t) k
        = optOr (branches.reverse.findSome? (fun b => lookupLastP (branchProps spec b) k))
            (mapGet t k) := by
  induction branches with
  | nil => intro t; simp [List.findSome?, optOr]
  | cons b bs ih =>
    intro t
    simp only [List.foldl_cons, List.reverse_cons]
    rw [ih, findSomeAppend, optOr_assoc]
    congr 1
    rw [mapGet_assignProps]
    congr 1
    cases hfb : lookupLastP (branchProps spec b) k <;> simp [List.findSome?, hfb]

theorem jstr_eq_some (x : Json) (a : String) : jstr x = some a ↔ x = Json.str a := by
  cases x <;> simp [jstr]

theorem mem_addRequired (a : String) (xs : List Json) :
    ∀ req : List String, a ∈ addRequired req xs ↔ a ∈ req ∨ Json.str a ∈ xs := by
  induction xs with
  | nil => intro req; simp [addRequired]
  | cons x rest ih =>
    intro req
    have hstep : addRequired req (x :: rest) = addRequired
        (match x with
         | Json.str s => if s ∈ req then req else req ++ [s]
         | _ => req) rest := rfl
    rw [hstep, ih]
    cases x with
    | str s =>
      by_cases hs : s ∈ req
      · simp only [if_pos hs, List.mem_cons, Json.str.injEq]
        constructor
        · rintro (h | h)
          · exact Or.inl h
          · exact Or.inr (Or.inr h)
        · rintro (h | rfl | h)
          · exact Or.inl h
          · exact Or.inl hs
          · exact Or.inr h
      · simp [if_neg hs, List.mem_append, List.mem_cons, Json.str.injEq, or_assoc]
    | null => simp [List.mem_cons]
    | bool b => simp [List.mem_cons]
    | num n => simp [List.mem_cons]
    | arr ys => simp [List.mem_cons]
    | obj fs => simp [List.mem_cons]

theorem branchAccum_snd_mem (spec : Json) (acc : List (String × Json) × List String)
    (sub : Json) (a : String) :
    a ∈ (branchAccum spec acc sub).2 ↔ a ∈ acc.2 ∨ a ∈ branchReq spec sub := by
  cases hrb : resolveBranch spec sub with
  | none => simp [branchAccum, branchReq, hrb]
  | some r =>
    cases hp : Json.get r "required" with
    | none => simp [branchAccum, branchReq, hrb, hp]
    | some p =>
      cases p with
      | arr xs =>
        simp only [branchAccum, branchReq, hrb, hp]
        rw [mem_addRequired]
        simp [List.mem_filterMap, jstr_eq_some]
      | null => simp [branchAccum, branchReq, hrb, hp]
      | bool b => simp [branchAccum, branchReq, hrb, hp]
      | num n => simp [branchAccum, branchReq, hrb, hp]
      | str s => simp [branchAccum, branchReq, hrb, hp]
      | obj fs => simp [branchAccum, branchReq, hrb, hp]

theorem foldl_branchAccum_snd_mem (spec : Json) (branches : List Json) (a : String) :
    ∀ acc : List (String × Json) × List String,
      a ∈ (branches.foldl (branchAccum spec) acc).2 ↔
        a ∈ acc.2 ∨ ∃ b ∈ branches, a ∈ branchReq spec b := by
  induction branches with
  | nil => intro acc; simp
  | cons b bs ih =>
    intro acc
    simp only [List.foldl_cons]
    rw [ih, branchAccum_snd_mem]
    simp only [List.mem_cons]
    constructor
    · rintro ((h | h) | ⟨b', hb', h⟩)
      · exact Or.inl h
      · exact Or.inr ⟨b, Or.inl rfl, h⟩
      · exact Or.inr ⟨b', Or.inr hb', h⟩
    · rintro (h | ⟨b', hb' | hb', h⟩)
      · exact Or.inl (Or.inl h)
      · subst hb'; exact Or.inl (Or.inr h)
      · exact Or.inr ⟨b', hb', h⟩

/-- C4: the flattened request-body mapping looks a name up as: the
schema's own direct `properties` first (they are merged last and
override everything), otherwise the LAST `allOf` branch in declared
order whose resolved `properties` define the name (later branches
override earlier ones); and the flattened required set is exactly the
union of every branch's `required` with the direct `required`. -/
theorem collectBodyProps_spec (spec body : Json) (name : String) :
    mapGet (collectBodyProps spec body).1 name
      = optOr (lookupLastP (directProps body) name)
          ((allOfBranches body).reverse.findSome?
            (fun b => lookupLastP (branchProps spec b) name))
    ∧ (name ∈ (collectBodyProps spec body).2 ↔
        name ∈ directReq body ∨ ∃ b ∈ allOfBranches body, name ∈ branchReq spec b) := by
  have hAfter : (match Json.get body "allOf" with
      | some (.arr branches) => branches.foldl (branchAccum spec) ([], [])
      | _ => (([] : List (String × Json)), ([] : List String)))
      = (allOfBranches body).foldl (branchAccum spec) ([], []) := by
    unfold allOfBranches
    cases h : Json.get body "allOf" with
    | none => rfl
    | some v => cases v <;> rfl
  have hProps : ∀ after : List (String × Json),
      (match Json.get body "properties" with
       | some (.obj fs) => assignProps after fs
       | _ => after) = assignProps after (directProps body) := by
    intro after
    unfold directProps
    cases h : Json.get body "properties" with
    | none => rfl
    | some v => cases v <;> rfl
  have hReq : ∀ after : List String,
      (name ∈ (match Json.get body "required" with
       | some (.arr xs) => addRequired after xs
       | _ => after)) ↔ name ∈ after ∨ name ∈ directReq body := by
    intro after
    unfold directReq
    cases h : Json.get body "required" with
    | none => simp
    | some v =>
      cases v with
      | arr xs =>
        rw [mem_addRequired]
        simp [List.mem_filterMap, jstr_eq_some]
      | null => simp
      | bool b => simp
      | num n => simp
      | str s => simp
      | obj fs => simp
  constructor
  · show mapGet (collectBodyProps spec body).1 name = _
    simp only [collectBodyProps]
    rw [hAfter, hProps, mapGet_assignProps, foldl_branchAccum_fst, mapGet_foldl_assign]
    simp [mapGet, optOr_none_right]
  · show (name ∈ (collectBodyProps spec body).2) ↔ _
    simp only [collectBodyProps]
    rw [hAfter, hReq, foldl_branchAccum_snd_mem]
    simp only [List.not_mem_nil, false_or]
    exact or_comm

theorem strData_append (a b : String) : (a ++ b).data = a.data ++ b.data := by
  cases a; cases b; rfl

theorem strStartsWith_comment (k v s : String) :
    strStartsWith ("  // " ++ k ++ ": " ++ v ++ s) "  //" = true := by
  simp [strStartsWith, strData_append, List.isPrefixOf]

theorem strStartsWith_live (k v s : String) (hk : strStartsWith k "/" = false) :
    strStartsWith ("  " ++ k ++ ": " ++ v ++ s) "  //" = false := by
  simp only [strStartsWith, strData_append] at *
  simp only [List.append_assoc, List.cons_append, List.nil_append]
  cases hkd : k.data with
  | nil => simp [List.isPrefixOf]
  | cons c cs =>
    rw [hkd] at hk
    simp only [List.cons_append, List.isPrefixOf] at hk ⊢
    simp at hk ⊢
    intro h
    exact absurd h hk

theorem fieldEntryLines_shape (fuel : Nat) (req : List String) (body spec : Json)
    (nowIso : String) :
    ∀ (props : List (String × Json)) (lines : List String),
      fieldEntryLines fuel props req body spec nowIso = some lines →
      (∀ kv ∈ props, strStartsWith kv.1 "/" = false) →
      lines.length = props.length ∧
      ∀ (i : Nat) (h1 : i < lines.length) (h2 : i < props.length),
        (strStartsWith (lines.get ⟨i, h1⟩) "  //" = false ↔
          (props.get ⟨i, h2⟩).1 ∈ req) := by
  intro props
  induction props with
  | nil =>
    intro lines hlines hnames
    simp [fieldEntryLines] at hlines
    subst hlines
    exact ⟨rfl, fun i h1 h2 => absurd h1 (by simp)⟩
  | cons kv rest ih =>
    intro lines hlines hnames
    obtain ⟨propName, propSchema⟩ := kv
    simp only [fieldEntryLines] at hlines
    cases hgen : generateExampleValue fuel propSchema propName body spec nowIso with
    | none => rw [hgen] at hlines; simp at hlines
    | some ev =>
      rw [hgen] at hlines
      cases hrec : fieldEntryLines fuel rest req body spec nowIso with
      | none => rw [hrec] at hlines; simp at hlines
      | some tail =>
        rw [hrec] at hlines
        simp only [Option.some.injEq] at hlines
        subst hlines
        have hname0 : strStartsWith propName "/" = false :=
          hnames (propName, propSchema) (List.mem_cons_self _ _)
        obtain ⟨hlen, hidx⟩ := ih tail hrec
          (fun kv hkv => hnames kv (List.mem_cons_of_mem _ hkv))
        constructor
        · simp [hlen]
        · intro i h1 h2
          cases i with
          | zero =>
            by_cases hreq : propName ∈ req
            · simp only [List.get, hreq, if_pos]
              simp [strStartsWith_live _ _ _ hname0, hreq]
            · simp only [List.get, hreq, if_neg, if_false]
              simp [strStartsWith_comment, hreq]
          | succ j =>
            simp only [List.get]
            exact hidx j (by simpa using h1) (by simpa using h2)

/-- C9: in the generated request-body field lines (one per flattened
property, in order), a line is NOT commented out (does not start with
`  //`) exactly when its property is in the flattened required set —
required fields come out as live assignments, optional fields as
commented-out lines.  The side condition that no property name starts
with `/` rules out names that would make a live line itself read as a
comment. -/
theorem requestBody_required_lines (fuel : Nat) (spec body : Json) (nowIso : String)
    (lines : List String)
    (hlines : fieldEntryLines fuel (collectBodyProps spec body).1
        (collectBodyProps spec body).2 body spec nowIso = some lines)
    (hnames : ∀ kv ∈ (collectBodyProps spec body).1, strStartsWith kv.1 "/" = false) :
    lines.length = (collectBodyProps spec body).1.length ∧
    ∀ (i : Nat) (h1 : i < lines.length) (h2 : i < (collectBodyProps spec body).1.length),
      (strStartsWith (lines.get ⟨i, h1⟩) "  //" = false ↔
        ((collectBodyProps spec body).1.get ⟨i, h2⟩).1 ∈ (collectBodyProps spec body).2) :=
  fieldEntryLines_shape fuel (collectBodyProps spec body).2 body spec nowIso
    (collectBodyProps spec body).1 lines hlines hnames

/-- A small request-body schema for the C9 witness: property `a`
required, property `b` optional, both with explicit examples. -/
def sampleBody : Json :=
  Json.obj [("properties", Json.obj [
      ("a", Json.obj [("example", Json.str "x")]),
      ("b", Json.obj [("example", Json.str "y")])]),
    ("required", Json.arr [Json.str "a"])]

/-- C9 witness: on `sampleBody` the required property's line is live
and the optional property's line is commented out. -/
theorem requestBody_required_lines_witness :
    (["  a: 'x', // required", "  // b: 'y', // optional"] : List String).length
      = (collectBodyProps (Json.obj []) sampleBody).1.length
    ∧ strStartsWith "  a: 'x', // required" "  //" = false := by
  have gA : generateExampleValue 3 (Json.obj [("example", Json.str "x")]) "a"
      sampleBody (Json.obj []) "" = some (Json.str "x") := by
    rw [generateExampleValue.eq_def]; rfl
  have gB : generateExampleValue 3 (Json.obj [("example", Json.str "y")]) "b"
      sampleBody (Json.obj []) "" = some (Json.str "y") := by
    rw [generateExampleValue.eq_def]; rfl
  have hlines : fieldEntryLines 3 (collectBodyProps (Json.obj []) sampleBody).1
      (collectBodyProps (Json.obj []) sampleBody).2 sampleBody (Json.obj []) ""
      = some ["  a: 'x', // required", "  // b: 'y', // optional"] := by
    show fieldEntryLines 3 [("a", Json.obj [("example", Json.str "x")]),
        ("b", Json.obj [("example", Json.str "y")])] ["a"] sampleBody (Json.obj []) "" = _
    simp [fieldEntryLines, gA, gB, valueToCode]
  have h := requestBody_required_lines 3 (Json.obj []) sampleBody ""
    ["  a: 'x', // required", "  // b: 'y', // optional"] hlines (by decide)
  exact ⟨h.1, (h.2 0 (by decide) (by decide)).mpr (by decide)⟩

end ToonFetch
